import Mathlib

/-!
# qsslint: the command-line shim around `QCss::Parser`

A shallow embedding of `src/main.cpp`.  The program is a thin driver: it
constructs Qt's private `QCss::Parser` for every file given on the command
line, installs a message handler that records whether a warning was emitted
while the parser runs, and folds the per-file verdicts into the exit code.

`QCss::Parser`, `QString`, Qt's logging dispatch and `QCommandLineParser` are
Qt components; they are not part of `main.cpp`.  The parser's behaviour is a
parameter of the model (`ParserModel`); the few `QString` members used by the
verbose dump are modelled after their Qt documentation.
-/

namespace QssLint

/-! ## Qt data used by `main.cpp` -/

/-- Qt message categories (`enum QtMsgType`). -/
inductive QtMsgType where
  | QtDebugMsg
  | QtWarningMsg
  | QtCriticalMsg
  | QtFatalMsg
  | QtInfoMsg
  deriving DecidableEq

/-- One UTF-16 code unit. -/
abbrev QChar := Fin 65536

/-- A `QString`: a sequence of UTF-16 code units. -/
abbrev QString := List QChar

/-- Length of a string as the `int` that `QString::length()` returns. -/
def QString.length (s : QString) : Int := (List.length s : Nat)

/-- `QString::left(n)`: the `n` leftmost characters; the entire string when `n`
is negative or at least `size()`. -/
def QString.left (s : QString) (n : Int) : QString :=
  if n < 0 ∨ n ≥ QString.length s then s else s.take n.toNat

/-- `QString::mid(position, n)`: `n` characters starting at `position`; an empty
(null) string when `position` exceeds the length; everything from `position` on
when `n` is negative or exceeds what is available.  A negative `position`
is clipped the way `QContainerImplHelper::mid` clips it. -/
def QString.mid (s : QString) (position : Int) (n : Int) : QString :=
  let originalLength := QString.length s
  if position > originalLength then []
  else if position < 0 then
    if n < 0 ∨ n + position ≥ originalLength then s
    else if n + position ≤ 0 then []
    else s.take (n + position).toNat
  else if n < 0 ∨ n > originalLength - position then s.drop position.toNat
  else (s.drop position.toNat).take n.toNat

/-- The fields of `QCss::Symbol` read by the verbose dump. -/
structure Symbol where
  text : QString
  start : Int
  len : Int
  deriving DecidableEq

/-- An operand streamed into a `QDebug` object with `<<`. -/
inductive Item where
  | str (s : String)
  | qstr (s : QString)
  | int (n : Int)
  deriving DecidableEq

/-- A log message: its category and the operands streamed into it. -/
structure Message where
  type : QtMsgType
  items : List Item
  deriving DecidableEq

/-- A message produced by `qWarning() << ...`. -/
def qWarning (items : List Item) : Message := ⟨QtMsgType.QtWarningMsg, items⟩

/-- The two message handlers that can be installed while the program runs:
the handler Qt starts with, and the capturing handler of `main.cpp`. -/
inductive Handler where
  | qDefaultMessageHandler
  | noWarningsMessageHandler
  deriving DecidableEq

/-- What one `QCss::Parser` object does for a given `(css, isFile)`:
the messages logged by its constructor (for a file: while loading it), the
messages logged by `parse`, the value `parse` returns, and the error symbol
with its lexem. -/
structure ParseRun where
  constructionMessages : List Message
  parseMessages : List Message
  parseResult : Bool
  errorSymbol : Symbol
  errorLexem : QString

/-- Behaviour of the external `QCss::Parser`, as a function of the constructor
arguments `(css, isFile)`. -/
abbrev ParserModel := QString → Bool → ParseRun

/-! ## Program state -/

/-- The mutable state the program touches: the installed Qt message handler,
the two globals of `main.cpp`, the messages that reached Qt's own handler, and
the parsers constructed so far (constructor arguments, oldest first). -/
structure World where
  messageHandler : Handler
  s_originalMessageHandler : Option Handler
  s_warningsDetected : Bool
  output : List Message
  parsers : List (QString × Bool)

/-- State at process start: Qt's handler installed, the static globals
zero-initialised. -/
def World.initial : World :=
  { messageHandler := Handler.qDefaultMessageHandler
    s_originalMessageHandler := none
    s_warningsDetected := false
    output := []
    parsers := [] }

/-- Qt's own handler: the message is written out. -/
def qDefaultMessageHandler (m : Message) (w : World) : World :=
  { w with output := w.output ++ [m] }

/-- `noWarningsMessageHandler` of `main.cpp`: raise the flag on a warning, then
forward to `s_originalMessageHandler`.  Forwarding through a null pointer, or
to this very handler (an unbounded recursion), yields no result. -/
def noWarningsMessageHandler (m : Message) (w : World) : Option World :=
  let w1 := if m.type = QtMsgType.QtWarningMsg then { w with s_warningsDetected := true } else w
  match w1.s_originalMessageHandler with
  | some Handler.qDefaultMessageHandler => some (qDefaultMessageHandler m w1)
  | some Handler.noWarningsMessageHandler => none
  | none => none

/-- Qt hands a logged message to the installed handler.  Only the handler call
is modelled, not what Qt does around it (category filtering, the abort that
follows a fatal message). -/
def emit (m : Message) (w : World) : Option World :=
  match w.messageHandler with
  | Handler.qDefaultMessageHandler => some (qDefaultMessageHandler m w)
  | Handler.noWarningsMessageHandler => noWarningsMessageHandler m w

/-- A sequence of messages logged one after the other. -/
def emitAll : List Message → World → Option World
  | [], w => some w
  | m :: ms, w => (emit m w).bind (emitAll ms)

/-- `qInstallMessageHandler(h)`: installs `h` (Qt's own handler for a null
pointer) and returns the handler that was installed before. -/
def qInstallMessageHandler (h : Option Handler) (w : World) : Handler × World :=
  (w.messageHandler, { w with messageHandler := h.getD Handler.qDefaultMessageHandler })

/-! ## `lintStyleSheet` -/

/-- First derived substring of the verbose dump. -/
def leftString (errorSymbol : Symbol) : QString :=
  QString.left errorSymbol.text errorSymbol.start

/-- Second derived substring of the verbose dump. -/
def midString (errorSymbol : Symbol) : QString :=
  QString.mid errorSymbol.text errorSymbol.start errorSymbol.len

/-- Third derived substring of the verbose dump (`mid` with the default length -1). -/
def rightString (errorSymbol : Symbol) : QString :=
  QString.mid errorSymbol.text (errorSymbol.start + errorSymbol.len) (-1)

/-- The block guarded by `if(verboseErrorMessage)`. -/
def verboseDump (errorSymbol : Symbol) (lexem : QString) : List Message :=
  [ qWarning [Item.str "Lexem causing the error: ", Item.qstr lexem],
    qWarning [Item.str "\tstart:", Item.int errorSymbol.start,
              Item.str "length:", Item.int errorSymbol.len],
    qWarning [Item.str "original length:", Item.int (QString.length errorSymbol.text)],
    qWarning [Item.str "new length:", Item.int (QString.length (leftString errorSymbol)),
              Item.int (QString.length (midString errorSymbol)),
              Item.int (QString.length (rightString errorSymbol))],
    qWarning [Item.str "leftString:", Item.qstr (leftString errorSymbol)],
    qWarning [Item.str "midString:", Item.qstr (midString errorSymbol)],
    qWarning [Item.str "rightString:", Item.qstr (QString.left (rightString errorSymbol) 20)] ]

/-- The message announcing a failed lint. -/
def invalidMessage (css : QString) (isFile : Bool) : Message :=
  if isFile then qWarning [Item.str "Invalid stylesheet for ", Item.qstr css]
  else qWarning [Item.str "Invalid stylesheet"]

/-- `lintStyleSheet(css, isFile, syntaxOnly, verboseErrorMessage)`.
The result is `none` when a handler call has no result (see
`noWarningsMessageHandler`). -/
def lintStyleSheet (P : ParserModel) (css : QString) (isFile syntaxOnly verboseErrorMessage : Bool)
    (w : World) : Option (Bool × World) :=
  let run := P css isFile
  -- QCss::Parser parser(css, isFile);
  (emitAll run.constructionMessages { w with parsers := w.parsers ++ [(css, isFile)] }).bind fun w1 =>
  -- s_originalMessageHandler = qInstallMessageHandler(noWarningsMessageHandler);
  let installed := qInstallMessageHandler (some Handler.noWarningsMessageHandler) w1
  let w2 := { installed.2 with s_originalMessageHandler := some installed.1 }
  -- s_warningsDetected = false;
  let w3 := { w2 with s_warningsDetected := false }
  -- const bool success = parser.parse(&ss) && (!s_warningsDetected || syntaxOnly);
  (emitAll run.parseMessages w3).bind fun w4 =>
  let success := run.parseResult && (!w4.s_warningsDetected || syntaxOnly)
  -- qInstallMessageHandler(s_originalMessageHandler);
  let w5 := (qInstallMessageHandler w4.s_originalMessageHandler w4).2
  if success then some (true, w5)
  else
    (emit (invalidMessage css isFile) w5).bind fun w6 =>
    (if verboseErrorMessage then emitAll (verboseDump run.errorSymbol run.errorLexem) w6
     else some w6).bind fun w7 =>
    some (false, w7)

/-! ## `main` -/

/-- What `QCommandLineParser` hands back after `parser.process(app)`. -/
structure CommandLine where
  positionalArguments : List QString
  syntaxOnly : Bool
  verboseErrorMessage : Bool

/-- How the process ends: `main` returns a code, or `showHelp(exitCode)` prints
the help text and calls `exit(exitCode)` without returning. -/
inductive Outcome where
  | returned (code : Int)
  | showHelp (exitCode : Int)
  deriving DecidableEq

/-- The value handed to the C runtime as the process exit code. -/
def Outcome.exitCode : Outcome → Int
  | Outcome.returned code => code
  | Outcome.showHelp exitCode => exitCode

/-- Whether the help text was displayed. -/
def Outcome.helpShown : Outcome → Bool
  | Outcome.returned _ => false
  | Outcome.showHelp _ => true

/-- The exit status a parent process observes: the low eight bits of the code. -/
def Outcome.exitStatus (o : Outcome) : Int := o.exitCode % 256

/-- The `for` loop of `main`: `success &= lintStyleSheet(filename, true, ...)`
for every file name; the call is made before the flag is combined. -/
def lintLoop (P : ParserModel) (isSyntaxOnly verboseErrorMessage : Bool) :
    List QString → Bool → World → Option (Bool × World)
  | [], success, w => some (success, w)
  | filename :: rest, success, w =>
    (lintStyleSheet P filename true isSyntaxOnly verboseErrorMessage w).bind fun r =>
    lintLoop P isSyntaxOnly verboseErrorMessage rest (success && r.1) r.2

/-- `main`, from the point where the command line has been processed. -/
def main (P : ParserModel) (cl : CommandLine) (w : World) : Option (Outcome × World) :=
  let files := cl.positionalArguments
  if files.isEmpty then
    -- parser.showHelp(-1) does not return
    some (Outcome.showHelp (-1), w)
  else
    (lintLoop P cl.syntaxOnly cl.verboseErrorMessage files true w).bind fun r =>
    some (Outcome.returned (if r.1 then 0 else 1), r.2)

/-! ## Auxiliary notions used in the statements -/

/-- Whether a sequence of messages contains one of type `QtWarningMsg`. -/
def hasWarning (ms : List Message) : Bool :=
  ms.any fun m => decide (m.type = QtMsgType.QtWarningMsg)

/-- The warnings among a sequence of messages. -/
def warningsOf (ms : List Message) : List Message :=
  ms.filter fun m => decide (m.type = QtMsgType.QtWarningMsg)

/-- The messages `lintStyleSheet` logs itself once the verdict is known. -/
def failureMessages (run : ParseRun) (css : QString) (isFile verboseErrorMessage : Bool) :
    List Message :=
  invalidMessage css isFile ::
    (if verboseErrorMessage then verboseDump run.errorSymbol run.errorLexem else [])

/-- The verdict `lintStyleSheet` computes, in closed form. -/
def verdict (run : ParseRun) (syntaxOnly : Bool) : Bool :=
  run.parseResult && (!hasWarning run.parseMessages || syntaxOnly)

/-! ## A concrete parser behaviour for evaluating the model

Four inputs, named by a single letter: `g` a sheet that parses cleanly, `u` a
sheet that parses but makes the parser warn (an unknown property), `b` a sheet
whose parse fails at the third of five code units, and anything else a file
that cannot be loaded: the constructor warns and the empty sheet parses. -/

/-- The name `g`. -/
def fileG : QString := [103]

/-- The name `u`. -/
def fileU : QString := [117]

/-- The name `b`. -/
def fileB : QString := [98]

/-- The name `m`. -/
def fileM : QString := [109]

/-- The sample behaviour described above. -/
def sampleParser : ParserModel := fun css _ =>
  if css = fileG then
    { constructionMessages := [], parseMessages := [], parseResult := true,
      errorSymbol := ⟨[], 0, -1⟩, errorLexem := [] }
  else if css = fileU then
    { constructionMessages := [],
      parseMessages := [qWarning [Item.str "Unknown property", Item.str "colour"]],
      parseResult := true, errorSymbol := ⟨[], 0, -1⟩, errorLexem := [] }
  else if css = fileB then
    { constructionMessages := [], parseMessages := [], parseResult := false,
      errorSymbol := ⟨[97, 123, 59, 125, 10], 2, 1⟩, errorLexem := [59] }
  else
    { constructionMessages :=
        [qWarning [Item.str "QCss::Parser - Failed to load file ", Item.qstr css]],
      parseMessages := [], parseResult := true, errorSymbol := ⟨[], 0, -1⟩, errorLexem := [] }

/-- A variant of `sampleParser` that is silent while constructing and chatty,
without warnings, while parsing a file that cannot be loaded. -/
def quietParser : ParserModel := fun css isFile =>
  if css = fileM then
    { constructionMessages := [],
      parseMessages := [⟨QtMsgType.QtDebugMsg, [Item.str "parsing"]⟩,
                        ⟨QtMsgType.QtCriticalMsg, [Item.str "slow"]⟩],
      parseResult := true, errorSymbol := ⟨[], 0, -1⟩, errorLexem := [] }
  else sampleParser css isFile

/-! ## Message delivery -/

theorem emitAll_default (ms : List Message) (w : World)
    (hw : w.messageHandler = Handler.qDefaultMessageHandler) :
    emitAll ms w = some { w with output := w.output ++ ms } := by
  induction ms generalizing w with
  | nil => simp [emitAll]
  | cons m ms ih =>
    have h1 : emit m w = some (qDefaultMessageHandler m w) := by
      simp [emit, hw]
    have h2 : (qDefaultMessageHandler m w).messageHandler = Handler.qDefaultMessageHandler := by
      simp [qDefaultMessageHandler, hw]
    rw [emitAll, h1, Option.some_bind, ih _ h2]
    simp [qDefaultMessageHandler]

theorem emit_default (m : Message) (w : World)
    (hw : w.messageHandler = Handler.qDefaultMessageHandler) :
    emit m w = some { w with output := w.output ++ [m] } := by
  simp [emit, hw, qDefaultMessageHandler]

theorem emitAll_capturing (ms : List Message) (w : World)
    (hw : w.messageHandler = Handler.noWarningsMessageHandler)
    (ho : w.s_originalMessageHandler = some Handler.qDefaultMessageHandler) :
    emitAll ms w = some { w with s_warningsDetected := w.s_warningsDetected || hasWarning ms
                                 output := w.output ++ ms } := by
  induction ms generalizing w with
  | nil => simp [emitAll, hasWarning]
  | cons m ms ih =>
    obtain ⟨h, o, f, out, ps⟩ := w
    simp only at hw ho
    subst hw ho
    by_cases hm : m.type = QtMsgType.QtWarningMsg
    · have h1 : emit m ⟨Handler.noWarningsMessageHandler, some Handler.qDefaultMessageHandler, f, out, ps⟩
          = some ⟨Handler.noWarningsMessageHandler, some Handler.qDefaultMessageHandler, true,
              out ++ [m], ps⟩ := by
        simp [emit, noWarningsMessageHandler, hm, qDefaultMessageHandler]
      rw [emitAll, h1, Option.some_bind, ih _ rfl rfl]
      simp [hasWarning, hm]
    · have h1 : emit m ⟨Handler.noWarningsMessageHandler, some Handler.qDefaultMessageHandler, f, out, ps⟩
          = some ⟨Handler.noWarningsMessageHandler, some Handler.qDefaultMessageHandler, f,
              out ++ [m], ps⟩ := by
        simp [emit, noWarningsMessageHandler, hm, qDefaultMessageHandler]
      rw [emitAll, h1, Option.some_bind, ih _ rfl rfl]
      simp [hasWarning, hm]

/-- Closed form of a `lintStyleSheet` call entered with Qt's handler installed. -/
theorem lintStyleSheet_eq (P : ParserModel) (css : QString)
    (isFile syntaxOnly verboseErrorMessage : Bool) (w : World)
    (hw : w.messageHandler = Handler.qDefaultMessageHandler) :
    lintStyleSheet P css isFile syntaxOnly verboseErrorMessage w =
      some (verdict (P css isFile) syntaxOnly,
        { messageHandler := Handler.qDefaultMessageHandler
          s_originalMessageHandler := some Handler.qDefaultMessageHandler
          s_warningsDetected := hasWarning (P css isFile).parseMessages
          output := w.output ++ (P css isFile).constructionMessages ++ (P css isFile).parseMessages ++
            (if verdict (P css isFile) syntaxOnly then []
             else failureMessages (P css isFile) css isFile verboseErrorMessage)
          parsers := w.parsers ++ [(css, isFile)] }) := by
  obtain ⟨h, o, f, out, ps⟩ := w
  simp only at hw
  subst hw
  unfold lintStyleSheet
  simp only []
  rw [emitAll_default _ _ rfl]
  simp only [Option.some_bind, qInstallMessageHandler, Option.getD_some]
  rw [emitAll_capturing _ _ rfl rfl]
  simp only [Option.some_bind, Bool.false_or, Option.getD_some]
  by_cases hv : verdict (P css isFile) syntaxOnly = true
  · have hv2 := hv
    unfold verdict at hv2
    simp [hv, hv2]
  · have hv2 := hv
    unfold verdict at hv2
    simp only [hv2, hv, if_false, Bool.false_eq_true]
    rw [emit_default _ _ rfl]
    simp only [Option.some_bind]
    cases verboseErrorMessage
    · simp [failureMessages]
    · simp only [if_true]
      rw [emitAll_default _ _ rfl]
      simp [failureMessages]

/-- The Boolean returned by a `lintStyleSheet` call entered with Qt's handler installed. -/
theorem lintStyleSheet_fst (P : ParserModel) (css : QString)
    (isFile syntaxOnly verboseErrorMessage : Bool) (w : World)
    (hw : w.messageHandler = Handler.qDefaultMessageHandler) :
    (lintStyleSheet P css isFile syntaxOnly verboseErrorMessage w).map Prod.fst =
      some (verdict (P css isFile) syntaxOnly) := by
  rw [lintStyleSheet_eq P css isFile syntaxOnly verboseErrorMessage w hw]
  rfl

/-! ## The verdict of one lint -/

/-- C1: entered with Qt's handler installed, `lintStyleSheet` returns, and it
returns true iff `parser.parse` succeeded and (no `QtWarningMsg` was logged
during the parse, or `syntaxOnly` is set); equivalently it returns false iff the
parse failed, or a warning was logged and the mode is not syntax-only.  The flag
it leaves behind says exactly whether a warning was logged during the parse. -/
theorem lintStyleSheet_verdict (P : ParserModel) (css : QString)
    (isFile syntaxOnly verboseErrorMessage : Bool) (w : World)
    (hw : w.messageHandler = Handler.qDefaultMessageHandler) :
    (lintStyleSheet P css isFile syntaxOnly verboseErrorMessage w).map Prod.fst =
        some ((P css isFile).parseResult &&
          (!hasWarning (P css isFile).parseMessages || syntaxOnly)) ∧
    ((lintStyleSheet P css isFile syntaxOnly verboseErrorMessage w).map Prod.fst = some true ↔
        (P css isFile).parseResult = true ∧
          (hasWarning (P css isFile).parseMessages = false ∨ syntaxOnly = true)) ∧
    ((lintStyleSheet P css isFile syntaxOnly verboseErrorMessage w).map Prod.fst = some false ↔
        (P css isFile).parseResult = false ∨
          (hasWarning (P css isFile).parseMessages = true ∧ syntaxOnly = false)) ∧
    (lintStyleSheet P css isFile syntaxOnly verboseErrorMessage w).map
        (fun r => r.2.s_warningsDetected) = some (hasWarning (P css isFile).parseMessages) := by
  have hfst := lintStyleSheet_fst P css isFile syntaxOnly verboseErrorMessage w hw
  have heq := lintStyleSheet_eq P css isFile syntaxOnly verboseErrorMessage w hw
  refine ⟨hfst, ?_, ?_, ?_⟩
  · rw [hfst]
    unfold verdict
    cases (P css isFile).parseResult <;> cases hasWarning (P css isFile).parseMessages <;>
      cases syntaxOnly <;> simp
  · rw [hfst]
    unfold verdict
    cases (P css isFile).parseResult <;> cases hasWarning (P css isFile).parseMessages <;>
      cases syntaxOnly <;> simp
  · rw [heq]
    rfl

/-- C1 at concrete inputs: the sheet `u`, which parses with an unknown-property
warning, fails in full mode. -/
theorem lintStyleSheet_verdict_witness :
    World.initial.messageHandler = Handler.qDefaultMessageHandler ∧
    (lintStyleSheet sampleParser fileU true false false World.initial).map Prod.fst =
      some false := by
  refine ⟨rfl, ?_⟩
  have h := (lintStyleSheet_verdict sampleParser fileU true false false World.initial rfl).1
  rw [h]
  decide

/-- C3: when the parse succeeds while a warning is logged during it,
`lintStyleSheet` returns true in syntax-only mode and false in full mode; and in
syntax-only mode the result equals the parse result whatever was logged. -/
theorem lintStyleSheet_mode (P : ParserModel) (css : QString)
    (isFile verboseErrorMessage : Bool) (w : World)
    (hw : w.messageHandler = Handler.qDefaultMessageHandler) :
    (lintStyleSheet P css isFile true verboseErrorMessage w).map Prod.fst =
        some (P css isFile).parseResult ∧
    ((P css isFile).parseResult = true → hasWarning (P css isFile).parseMessages = true →
      (lintStyleSheet P css isFile true verboseErrorMessage w).map Prod.fst = some true ∧
      (lintStyleSheet P css isFile false verboseErrorMessage w).map Prod.fst = some false) := by
  rw [lintStyleSheet_fst P css isFile true verboseErrorMessage w hw,
    lintStyleSheet_fst P css isFile false verboseErrorMessage w hw]
  unfold verdict
  refine ⟨by simp, ?_⟩
  intro hp hwarn
  simp [hp, hwarn]

/-- C3 at the sheet `u`: accepted in syntax-only mode, rejected in full mode. -/
theorem lintStyleSheet_mode_witness :
    World.initial.messageHandler = Handler.qDefaultMessageHandler ∧
    (sampleParser fileU true).parseResult = true ∧
    hasWarning (sampleParser fileU true).parseMessages = true ∧
    (lintStyleSheet sampleParser fileU true true false World.initial).map Prod.fst = some true ∧
    (lintStyleSheet sampleParser fileU true false false World.initial).map Prod.fst = some false :=
  ⟨rfl, by decide, by decide,
    (lintStyleSheet_mode sampleParser fileU true false World.initial rfl).2 (by decide) (by decide)⟩

/-- C6: the result of a lint does not depend on the state it starts from.  For
any two states with Qt's handler installed (whatever their warning flag, their
saved handler and what was linted before) the call returns, with the same
Boolean; in particular the value of the flag is irrelevant, and so is any lint
performed just before. -/
theorem lintStyleSheet_state_independent (P : ParserModel) (css : QString)
    (isFile syntaxOnly verboseErrorMessage : Bool) (w1 w2 : World)
    (h1 : w1.messageHandler = Handler.qDefaultMessageHandler)
    (h2 : w2.messageHandler = Handler.qDefaultMessageHandler) :
    ((lintStyleSheet P css isFile syntaxOnly verboseErrorMessage w1).map Prod.fst).isSome = true ∧
    (lintStyleSheet P css isFile syntaxOnly verboseErrorMessage w1).map Prod.fst =
      (lintStyleSheet P css isFile syntaxOnly verboseErrorMessage w2).map Prod.fst ∧
    (∀ flag : Bool,
      (lintStyleSheet P css isFile syntaxOnly verboseErrorMessage
          { w1 with s_warningsDetected := flag }).map Prod.fst =
        (lintStyleSheet P css isFile syntaxOnly verboseErrorMessage w1).map Prod.fst) ∧
    (∀ (css0 : QString) (isFile0 syntaxOnly0 verbose0 : Bool),
      ((lintStyleSheet P css0 isFile0 syntaxOnly0 verbose0 w1).bind fun r =>
          lintStyleSheet P css isFile syntaxOnly verboseErrorMessage r.2).map Prod.fst =
        (lintStyleSheet P css isFile syntaxOnly verboseErrorMessage w1).map Prod.fst) := by
  refine ⟨?_, ?_, ?_, ?_⟩
  · rw [lintStyleSheet_fst P css isFile syntaxOnly verboseErrorMessage w1 h1]
    rfl
  · rw [lintStyleSheet_fst P css isFile syntaxOnly verboseErrorMessage w1 h1,
      lintStyleSheet_fst P css isFile syntaxOnly verboseErrorMessage w2 h2]
  · intro flag
    rw [lintStyleSheet_fst P css isFile syntaxOnly verboseErrorMessage w1 h1,
      lintStyleSheet_fst P css isFile syntaxOnly verboseErrorMessage _ (by simpa using h1)]
  · intro css0 isFile0 syntaxOnly0 verbose0
    rw [lintStyleSheet_eq P css0 isFile0 syntaxOnly0 verbose0 w1 h1, Option.some_bind,
      lintStyleSheet_fst P css isFile syntaxOnly verboseErrorMessage w1 h1,
      lintStyleSheet_fst P css isFile syntaxOnly verboseErrorMessage _ rfl]

/-- C6 at concrete states: linting the clean sheet `g` gives the same answer at
process start and in a state whose flag was left raised. -/
theorem lintStyleSheet_state_independent_witness :
    World.initial.messageHandler = Handler.qDefaultMessageHandler ∧
    ({ World.initial with s_warningsDetected := true }).messageHandler =
      Handler.qDefaultMessageHandler ∧
    (lintStyleSheet sampleParser fileG true false false World.initial).map Prod.fst =
      (lintStyleSheet sampleParser fileG true false false
        { World.initial with s_warningsDetected := true }).map Prod.fst :=
  ⟨rfl, rfl,
    (lintStyleSheet_state_independent sampleParser fileG true false false World.initial
      { World.initial with s_warningsDetected := true } rfl rfl).2.1⟩

theorem hasWarning_eq_of_warningsOf (ms ms' : List Message)
    (h : warningsOf ms = warningsOf ms') : hasWarning ms = hasWarning ms' := by
  have key : ∀ l : List Message, hasWarning l = !(warningsOf l).isEmpty := by
    intro l
    induction l with
    | nil => rfl
    | cons m l ih =>
      by_cases hm : m.type = QtMsgType.QtWarningMsg
      · simp [hasWarning, warningsOf, hm]
      · simp only [hasWarning, warningsOf] at ih
        simp [hasWarning, warningsOf, hm, ih]
  rw [key, key, h]

/-- C10: only what is logged while `parse` runs, and of it only the warnings,
enters the verdict.  Two parser behaviours that agree on the parse result and on
the warnings logged during the parse give the same `lintStyleSheet` result, no
matter what their constructors log (a failure to load the file included) and
which messages of other types the parse logs.  A lint whose parse succeeded can
fail only through a warning logged during the parse. -/
theorem lintStyleSheet_only_parse_warnings (P P' : ParserModel) (css : QString)
    (isFile syntaxOnly verboseErrorMessage : Bool) (w : World)
    (hw : w.messageHandler = Handler.qDefaultMessageHandler)
    (hres : (P css isFile).parseResult = (P' css isFile).parseResult)
    (hwarn : warningsOf (P css isFile).parseMessages = warningsOf (P' css isFile).parseMessages) :
    (lintStyleSheet P css isFile syntaxOnly verboseErrorMessage w).map Prod.fst =
      (lintStyleSheet P' css isFile syntaxOnly verboseErrorMessage w).map Prod.fst ∧
    ((P css isFile).parseResult = true →
      (lintStyleSheet P css isFile syntaxOnly verboseErrorMessage w).map Prod.fst = some false →
      hasWarning (P css isFile).parseMessages = true) := by
  rw [lintStyleSheet_fst P css isFile syntaxOnly verboseErrorMessage w hw,
    lintStyleSheet_fst P' css isFile syntaxOnly verboseErrorMessage w hw]
  unfold verdict
  rw [hres, hasWarning_eq_of_warningsOf _ _ hwarn]
  refine ⟨rfl, ?_⟩
  intro hp
  cases hasWarning (P' css isFile).parseMessages <;> simp [hp]

/-- C10 at the file `m` that cannot be loaded: whether the constructor warns
about it (`sampleParser`) or stays silent while the parse logs debug and critical
messages (`quietParser`), the lint succeeds in full mode. -/
theorem lintStyleSheet_only_parse_warnings_witness :
    World.initial.messageHandler = Handler.qDefaultMessageHandler ∧
    (sampleParser fileM true).parseResult = (quietParser fileM true).parseResult ∧
    warningsOf (sampleParser fileM true).parseMessages =
      warningsOf (quietParser fileM true).parseMessages ∧
    hasWarning (sampleParser fileM true).constructionMessages = true ∧
    (lintStyleSheet sampleParser fileM true false false World.initial).map Prod.fst = some true ∧
    (lintStyleSheet sampleParser fileM true false false World.initial).map Prod.fst =
      (lintStyleSheet quietParser fileM true false false World.initial).map Prod.fst :=
  ⟨rfl, by decide, by decide, by decide, by decide,
    (lintStyleSheet_only_parse_warnings sampleParser quietParser fileM true false false
      World.initial rfl (by decide) (by decide)).1⟩

/-! ## The loop of `main` -/

theorem foldl_and_eq_all {α : Type} (g : α → Bool) (l : List α) (acc : Bool) :
    l.foldl (fun a f => a && g f) acc = (acc && l.all g) := by
  induction l generalizing acc with
  | nil => simp
  | cons x l ih => simp [List.foldl_cons, ih, Bool.and_assoc]

/-- Closed form of the loop entered with Qt's handler installed. -/
theorem lintLoop_eq (P : ParserModel) (isSyntaxOnly verboseErrorMessage : Bool)
    (files : List QString) (success : Bool) (w : World)
    (hw : w.messageHandler = Handler.qDefaultMessageHandler) :
    ∃ w', lintLoop P isSyntaxOnly verboseErrorMessage files success w =
        some (success && files.all (fun f => verdict (P f true) isSyntaxOnly), w') ∧
      w'.messageHandler = Handler.qDefaultMessageHandler ∧
      w'.parsers = w.parsers ++ files.map (fun f => (f, true)) := by
  induction files generalizing success w with
  | nil => exact ⟨w, by simp [lintLoop], hw, by simp⟩
  | cons f rest ih =>
    rw [lintLoop, lintStyleSheet_eq P f true isSyntaxOnly verboseErrorMessage w hw]
    simp only [Option.some_bind]
    generalize hnext :
      ({ messageHandler := Handler.qDefaultMessageHandler
         s_originalMessageHandler := some Handler.qDefaultMessageHandler
         s_warningsDetected := hasWarning (P f true).parseMessages
         output := w.output ++ (P f true).constructionMessages ++ (P f true).parseMessages ++
           (if verdict (P f true) isSyntaxOnly then []
            else failureMessages (P f true) f true verboseErrorMessage)
         parsers := w.parsers ++ [(f, true)] } : World) = wn
    have hn : wn.messageHandler = Handler.qDefaultMessageHandler := by rw [← hnext]
    have hp : wn.parsers = w.parsers ++ [(f, true)] := by rw [← hnext]
    obtain ⟨w', h1, h2, h3⟩ := ih (success && verdict (P f true) isSyntaxOnly) wn hn
    refine ⟨w', ?_, h2, ?_⟩
    · rw [h1]
      simp [Bool.and_assoc]
    · rw [h3, hp]
      simp

/-- Closed form of `main` for a non-empty list of files. -/
theorem main_eq (P : ParserModel) (cl : CommandLine) (w : World)
    (hw : w.messageHandler = Handler.qDefaultMessageHandler)
    (hne : cl.positionalArguments ≠ []) :
    ∃ w', main P cl w =
        some (Outcome.returned
          (if cl.positionalArguments.all (fun f => verdict (P f true) cl.syntaxOnly) then 0 else 1),
          w') ∧
      w'.parsers = w.parsers ++ cl.positionalArguments.map (fun f => (f, true)) := by
  obtain ⟨w', h1, _, h3⟩ :=
    lintLoop_eq P cl.syntaxOnly cl.verboseErrorMessage cl.positionalArguments true w hw
  refine ⟨w', ?_, h3⟩
  unfold main
  have hemp : cl.positionalArguments.isEmpty = false := by
    cases hc : cl.positionalArguments with
    | nil => exact absurd hc hne
    | cons a l => rfl
  simp only [hemp, h1, Option.some_bind, Bool.true_and]
  rfl

/-- C2: for a non-empty list of file paths `main` returns, with exit code 0
when `lintStyleSheet` succeeds for every file and 1 when it fails for at least
one; the flag the loop computes is the conjunction of the per-file results. -/
theorem main_exit_code (P : ParserModel) (cl : CommandLine) (w : World)
    (hw : w.messageHandler = Handler.qDefaultMessageHandler)
    (hne : cl.positionalArguments ≠ []) :
    ((main P cl w).map Prod.fst = some (Outcome.returned 0) ↔
      ∀ f ∈ cl.positionalArguments, ∀ w0 : World,
        w0.messageHandler = Handler.qDefaultMessageHandler →
        (lintStyleSheet P f true cl.syntaxOnly cl.verboseErrorMessage w0).map Prod.fst =
          some true) ∧
    ((main P cl w).map Prod.fst = some (Outcome.returned 1) ↔
      ∃ f ∈ cl.positionalArguments, ∀ w0 : World,
        w0.messageHandler = Handler.qDefaultMessageHandler →
        (lintStyleSheet P f true cl.syntaxOnly cl.verboseErrorMessage w0).map Prod.fst =
          some false) ∧
    ((main P cl w).map Prod.fst = some (Outcome.returned 0) ∨
      (main P cl w).map Prod.fst = some (Outcome.returned 1)) ∧
    (∃ results : List Bool,
      List.Forall₂ (fun f r => ∀ w0 : World,
        w0.messageHandler = Handler.qDefaultMessageHandler →
        (lintStyleSheet P f true cl.syntaxOnly cl.verboseErrorMessage w0).map Prod.fst = some r)
        cl.positionalArguments results ∧
      (lintLoop P cl.syntaxOnly cl.verboseErrorMessage cl.positionalArguments true w).map
        Prod.fst = some (results.foldl (fun a r => a && r) true) ∧
      (main P cl w).map Prod.fst =
        some (Outcome.returned (if results.foldl (fun a r => a && r) true then 0 else 1))) := by
  obtain ⟨w', hmain, _⟩ := main_eq P cl w hw hne
  obtain ⟨w'', hloop, _, _⟩ :=
    lintLoop_eq P cl.syntaxOnly cl.verboseErrorMessage cl.positionalArguments true w hw
  have hfst : ∀ (f : QString) (b : Bool),
      (∀ w0 : World, w0.messageHandler = Handler.qDefaultMessageHandler →
        (lintStyleSheet P f true cl.syntaxOnly cl.verboseErrorMessage w0).map Prod.fst = some b) ↔
      verdict (P f true) cl.syntaxOnly = b := by
    intro f b
    constructor
    · intro h
      have h0 := h World.initial rfl
      rw [lintStyleSheet_fst P f true cl.syntaxOnly cl.verboseErrorMessage World.initial rfl] at h0
      exact Option.some.inj h0
    · intro h w0 h0
      rw [lintStyleSheet_fst P f true cl.syntaxOnly cl.verboseErrorMessage w0 h0, h]
  simp only [hfst]
  rw [hmain]
  simp only [Option.map_some']
  refine ⟨?_, ?_, ?_, ?_⟩
  · by_cases hall : cl.positionalArguments.all (fun f => verdict (P f true) cl.syntaxOnly) = true
    · simp only [hall, if_true, true_iff]
      exact fun f hf => List.all_eq_true.mp hall f hf
    · simp only [hall, if_false, Bool.false_eq_true]
      constructor
      · intro h
        simp at h
      · intro h
        exact absurd (List.all_eq_true.mpr h) hall
  · by_cases hall : cl.positionalArguments.all (fun f => verdict (P f true) cl.syntaxOnly) = true
    · simp only [hall, if_true]
      constructor
      · intro h
        simp at h
      · rintro ⟨f, hf, hv⟩
        have := List.all_eq_true.mp hall f hf
        rw [hv] at this
        exact absurd this (by decide)
    · simp only [hall, if_false, Bool.false_eq_true, true_iff]
      by_contra hno
      apply hall
      apply List.all_eq_true.mpr
      intro f hf
      by_contra hv
      exact hno ⟨f, hf, by simpa using hv⟩
  · by_cases hall : cl.positionalArguments.all (fun f => verdict (P f true) cl.syntaxOnly) = true
    · left; simp [hall]
    · right; simp [hall]
  · refine ⟨cl.positionalArguments.map (fun f => verdict (P f true) cl.syntaxOnly), ?_, ?_, ?_⟩
    · rw [List.forall₂_map_right_iff]
      exact List.forall₂_same.mpr (fun f _ => rfl)
    · rw [hloop, List.foldl_map, foldl_and_eq_all]
      rfl
    · rw [List.foldl_map, foldl_and_eq_all]
      simp

/-- C2 at concrete inputs: linting `g` then `u` in full mode, where the second
lint fails, gives exit code 1. -/
theorem main_exit_code_witness :
    World.initial.messageHandler = Handler.qDefaultMessageHandler ∧
    (⟨[fileG, fileU], false, false⟩ : CommandLine).positionalArguments ≠ [] ∧
    (main sampleParser ⟨[fileG, fileU], false, false⟩ World.initial).map Prod.fst =
      some (Outcome.returned 1) :=
  ⟨rfl, by decide,
    (main_exit_code sampleParser ⟨[fileG, fileU], false, false⟩ World.initial rfl
      (by decide)).2.1.mpr
      ⟨fileU, by decide, fun w0 h0 => by
        rw [lintStyleSheet_fst sampleParser fileU true false false w0 h0]
        decide⟩⟩

/-- C4: `main` constructs one parser, hence makes one `lintStyleSheet` call,
per file path, in the order supplied and whatever the earlier calls returned:
the parsers constructed during the run are exactly the input list, each with
`isFile` set. -/
theorem main_lints_every_file (P : ParserModel) (cl : CommandLine) (w : World)
    (hw : w.messageHandler = Handler.qDefaultMessageHandler) :
    (main P cl w).map (fun r => r.2.parsers) =
      some (w.parsers ++ cl.positionalArguments.map (fun f => (f, true))) := by
  by_cases hne : cl.positionalArguments = []
  · simp [main, hne]
  · obtain ⟨w', hmain, hp⟩ := main_eq P cl w hw hne
    rw [hmain]
    simp [hp]

/-- C4 at concrete inputs: `b` fails, and `g` and the second `b` are linted
all the same. -/
theorem main_lints_every_file_witness :
    World.initial.messageHandler = Handler.qDefaultMessageHandler ∧
    (lintStyleSheet sampleParser fileB true false false World.initial).map Prod.fst =
      some false ∧
    (main sampleParser ⟨[fileB, fileG, fileB], false, false⟩ World.initial).map
        (fun r => r.2.parsers) =
      some [(fileB, true), (fileG, true), (fileB, true)] :=
  ⟨rfl, by decide,
    main_lints_every_file sampleParser ⟨[fileB, fileG, fileB], false, false⟩ World.initial rfl⟩

/-- C5: with no positional file path `main` shows the help text and the
process ends through `showHelp(-1)`: the exit code is -1 (status 255), not 0, no
file is linted and `main` does not return. -/
theorem main_no_files (P : ParserModel) (syntaxOnly verboseErrorMessage : Bool) (w : World) :
    main P ⟨[], syntaxOnly, verboseErrorMessage⟩ w = some (Outcome.showHelp (-1), w) ∧
    (Outcome.showHelp (-1)).helpShown = true ∧
    (Outcome.showHelp (-1)).exitCode ≠ 0 ∧
    (Outcome.showHelp (-1)).exitStatus = 255 ∧
    (main P ⟨[], syntaxOnly, verboseErrorMessage⟩ w).map Prod.fst ≠ some (Outcome.returned 0) := by
  refine ⟨rfl, rfl, by decide, by decide, ?_⟩
  simp [main]

/-- C7: the exit code does not depend on the order of the files: for any
permutation of the list `main` ends the same way. -/
theorem main_perm (P : ParserModel) (syntaxOnly verboseErrorMessage : Bool) (w : World)
    (files files' : List QString)
    (hw : w.messageHandler = Handler.qDefaultMessageHandler)
    (hperm : files.Perm files') :
    ((main P ⟨files, syntaxOnly, verboseErrorMessage⟩ w).map Prod.fst).isSome = true ∧
    (main P ⟨files, syntaxOnly, verboseErrorMessage⟩ w).map Prod.fst =
      (main P ⟨files', syntaxOnly, verboseErrorMessage⟩ w).map Prod.fst := by
  by_cases hne : files = []
  · subst hne
    have h' : files' = [] := List.Perm.nil_eq hperm |>.symm
    subst h'
    exact ⟨rfl, rfl⟩
  · have hne' : files' ≠ [] := fun h => hne (by
      subst h
      exact List.Perm.eq_nil hperm)
    obtain ⟨w1, h1, _⟩ := main_eq P ⟨files, syntaxOnly, verboseErrorMessage⟩ w hw hne
    obtain ⟨w2, h2, _⟩ := main_eq P ⟨files', syntaxOnly, verboseErrorMessage⟩ w hw hne'
    rw [h1, h2]
    refine ⟨rfl, ?_⟩
    have hall : files.all (fun f => verdict (P f true) syntaxOnly) =
        files'.all (fun f => verdict (P f true) syntaxOnly) := by
      rw [Bool.eq_iff_iff, List.all_eq_true, List.all_eq_true]
      exact ⟨fun h f hf => h f (hperm.mem_iff.mpr hf), fun h f hf => h f (hperm.mem_iff.mp hf)⟩
    simp only [Option.map_some', hall]

/-- C7 at concrete inputs: `g, u, b` and `b, g, u` end with the same code, 1. -/
theorem main_perm_witness :
    World.initial.messageHandler = Handler.qDefaultMessageHandler ∧
    [fileG, fileU, fileB].Perm [fileB, fileG, fileU] ∧
    (main sampleParser ⟨[fileG, fileU, fileB], false, false⟩ World.initial).map Prod.fst =
      some (Outcome.returned 1) ∧
    (main sampleParser ⟨[fileG, fileU, fileB], false, false⟩ World.initial).map Prod.fst =
      (main sampleParser ⟨[fileB, fileG, fileU], false, false⟩ World.initial).map Prod.fst :=
  ⟨rfl, by decide, by decide,
    (main_perm sampleParser false false World.initial [fileG, fileU, fileB]
      [fileB, fileG, fileU] rfl (by decide)).2⟩

/-! ## The verbose error dump -/

/-- The three substrings for a span given by natural numbers inside the text. -/
theorem substrings_of_span (text : QString) (a b : Nat) (h : a + b ≤ List.length text) :
    leftString ⟨text, a, b⟩ = List.take a text ∧
    midString ⟨text, a, b⟩ = List.take b (List.drop a text) ∧
    rightString ⟨text, a, b⟩ = List.drop (a + b) text := by
  refine ⟨?_, ?_, ?_⟩
  · unfold leftString QString.left QString.length
    simp only []
    split
    · rename_i hc
      have : List.length text ≤ a := by omega
      exact (List.take_of_length_le this).symm
    · simp
  · unfold midString QString.mid QString.length
    simp only []
    rw [if_neg (by omega), if_neg (by omega), if_neg (by omega)]
    simp
  · unfold rightString QString.mid QString.length
    simp only []
    rw [if_neg (by omega), if_neg (by omega), if_pos (by omega)]
    congr 1

/-- C8: for an error symbol whose span lies inside its text (`0 <= start`,
`0 <= len`, `start + len <= length(text)`), the three substrings of the verbose
dump are the text before the span, the span and the text after it: their
concatenation is the text, the first has length `start`, the second length
`len`, and the three lengths printed as "new length" add up to the printed
"original length". -/
theorem verboseDump_substrings (errorSymbol : Symbol) (lexem : QString)
    (hstart : 0 ≤ errorSymbol.start) (hlen : 0 ≤ errorSymbol.len)
    (hspan : errorSymbol.start + errorSymbol.len ≤ QString.length errorSymbol.text) :
    leftString errorSymbol ++ midString errorSymbol ++ rightString errorSymbol =
      errorSymbol.text ∧
    leftString errorSymbol = List.take errorSymbol.start.toNat errorSymbol.text ∧
    midString errorSymbol =
      List.take errorSymbol.len.toNat (List.drop errorSymbol.start.toNat errorSymbol.text) ∧
    rightString errorSymbol =
      List.drop (errorSymbol.start.toNat + errorSymbol.len.toNat) errorSymbol.text ∧
    QString.length (leftString errorSymbol) = errorSymbol.start ∧
    QString.length (midString errorSymbol) = errorSymbol.len ∧
    QString.length (leftString errorSymbol) + QString.length (midString errorSymbol) +
      QString.length (rightString errorSymbol) = QString.length errorSymbol.text ∧
    qWarning [Item.str "original length:", Item.int (QString.length errorSymbol.text)] ∈
      verboseDump errorSymbol lexem ∧
    qWarning [Item.str "new length:", Item.int errorSymbol.start, Item.int errorSymbol.len,
        Item.int (QString.length errorSymbol.text - errorSymbol.start - errorSymbol.len)] ∈
      verboseDump errorSymbol lexem := by
  obtain ⟨text, start, len⟩ := errorSymbol
  simp only at hstart hlen hspan
  lift start to ℕ using hstart with a
  lift len to ℕ using hlen with b
  have hab : a + b ≤ List.length text := by
    unfold QString.length at hspan
    omega
  obtain ⟨hl, hm, hr⟩ := substrings_of_span text a b hab
  have hcat : List.take a text ++ List.take b (List.drop a text) ++ List.drop (a + b) text
      = text := by
    rw [List.append_assoc, ← List.drop_drop, List.take_append_drop, List.take_append_drop]
  have hll : QString.length (List.take a text) = (a : Int) := by
    unfold QString.length
    rw [List.length_take]
    omega
  have hlm : QString.length (List.take b (List.drop a text)) = (b : Int) := by
    unfold QString.length
    rw [List.length_take, List.length_drop]
    omega
  have hlr : QString.length (List.drop (a + b) text) = QString.length text - a - b := by
    unfold QString.length
    rw [List.length_drop]
    omega
  simp only [Int.toNat_ofNat]
  refine ⟨?_, hl, hm, hr, ?_, ?_, ?_, ?_, ?_⟩
  · rw [hl, hm, hr, hcat]
  · rw [hl, hll]
  · rw [hm, hlm]
  · rw [hl, hm, hr, hll, hlm, hlr]
    omega
  · simp [verboseDump]
  · simp only [verboseDump, hl, hm, hr, hll, hlm, hlr]
    simp

/-- C8 at the error symbol of the sheet `b`, text `a{;}` plus a newline and span
`(2, 1)`, together with everything a verbose lint of `b` logs. -/
theorem verboseDump_substrings_witness :
    (0 : Int) ≤ (sampleParser fileB true).errorSymbol.start ∧
    (0 : Int) ≤ (sampleParser fileB true).errorSymbol.len ∧
    (sampleParser fileB true).errorSymbol.start + (sampleParser fileB true).errorSymbol.len ≤
      QString.length (sampleParser fileB true).errorSymbol.text ∧
    leftString (sampleParser fileB true).errorSymbol = [97, 123] ∧
    midString (sampleParser fileB true).errorSymbol = [59] ∧
    rightString (sampleParser fileB true).errorSymbol = [125, 10] ∧
    (lintStyleSheet sampleParser fileB true false true World.initial).map
        (fun r => r.2.output) =
      some [ qWarning [Item.str "Invalid stylesheet for ", Item.qstr fileB],
             qWarning [Item.str "Lexem causing the error: ", Item.qstr [59]],
             qWarning [Item.str "\tstart:", Item.int 2, Item.str "length:", Item.int 1],
             qWarning [Item.str "original length:", Item.int 5],
             qWarning [Item.str "new length:", Item.int 2, Item.int 1, Item.int 2],
             qWarning [Item.str "leftString:", Item.qstr [97, 123]],
             qWarning [Item.str "midString:", Item.qstr [59]],
             qWarning [Item.str "rightString:", Item.qstr [125, 10]] ] ∧
    leftString (sampleParser fileB true).errorSymbol ++
      midString (sampleParser fileB true).errorSymbol ++
      rightString (sampleParser fileB true).errorSymbol =
      (sampleParser fileB true).errorSymbol.text :=
  ⟨by decide, by decide, by decide, by decide, by decide, by decide, by decide,
    (verboseDump_substrings (sampleParser fileB true).errorSymbol
      (sampleParser fileB true).errorLexem (by decide) (by decide) (by decide)).1⟩

end QssLint
